import Mathlib

/-!
Shallow embedding of the server core of this repository:
`src/lib/socket.js` (class Socket), `src/lib/namespace.js` (class Namespace),
and the per-transport demultiplexer `Client` in `src/unnamed/part_000`.

JavaScript values that can appear in packet data are modelled by the
inductive `Value`; a JavaScript function value is modelled as `Value.fn tag`
(only its identity matters for the properties checked here).  Mutable object
state becomes explicit state passing: each source method is translated to a
Lean function from the relevant state to the new state plus the observable
effects (packets written, broadcasts requested, callbacks invoked).
-/

namespace SocketIO

/-- A JavaScript value as it can occur in packet `data`: null, booleans,
numbers, strings, binary buffers, arrays, and function values (modelled by an
identifying tag). -/
inductive Value where
  | null : Value
  | bool : Bool → Value
  | num : Int → Value
  | str : String → Value
  | bin : List Nat → Value
  | arr : List Value → Value
  | fn : Nat → Value

mutual

/-- Decidable equality on values (written by hand because the automatic
derivation does not handle the nesting through lists). -/
def Value.decEq : (a b : Value) → Decidable (a = b)
  | Value.null, Value.null => isTrue rfl
  | Value.bool a, Value.bool b =>
    match inferInstanceAs (Decidable (a = b)) with
    | isTrue h => isTrue (congrArg Value.bool h)
    | isFalse h => isFalse (fun hh => h (Value.bool.inj hh))
  | Value.num a, Value.num b =>
    match inferInstanceAs (Decidable (a = b)) with
    | isTrue h => isTrue (congrArg Value.num h)
    | isFalse h => isFalse (fun hh => h (Value.num.inj hh))
  | Value.str a, Value.str b =>
    match inferInstanceAs (Decidable (a = b)) with
    | isTrue h => isTrue (congrArg Value.str h)
    | isFalse h => isFalse (fun hh => h (Value.str.inj hh))
  | Value.bin a, Value.bin b =>
    match inferInstanceAs (Decidable (a = b)) with
    | isTrue h => isTrue (congrArg Value.bin h)
    | isFalse h => isFalse (fun hh => h (Value.bin.inj hh))
  | Value.arr a, Value.arr b =>
    match Value.decEqList a b with
    | isTrue h => isTrue (congrArg Value.arr h)
    | isFalse h => isFalse (fun hh => h (Value.arr.inj hh))
  | Value.fn a, Value.fn b =>
    match inferInstanceAs (Decidable (a = b)) with
    | isTrue h => isTrue (congrArg Value.fn h)
    | isFalse h => isFalse (fun hh => h (Value.fn.inj hh))
  | Value.null, Value.bool _ => isFalse (fun h => Value.noConfusion h)
  | Value.null, Value.num _ => isFalse (fun h => Value.noConfusion h)
  | Value.null, Value.str _ => isFalse (fun h => Value.noConfusion h)
  | Value.null, Value.bin _ => isFalse (fun h => Value.noConfusion h)
  | Value.null, Value.arr _ => isFalse (fun h => Value.noConfusion h)
  | Value.null, Value.fn _ => isFalse (fun h => Value.noConfusion h)
  | Value.bool _, Value.null => isFalse (fun h => Value.noConfusion h)
  | Value.bool _, Value.num _ => isFalse (fun h => Value.noConfusion h)
  | Value.bool _, Value.str _ => isFalse (fun h => Value.noConfusion h)
  | Value.bool _, Value.bin _ => isFalse (fun h => Value.noConfusion h)
  | Value.bool _, Value.arr _ => isFalse (fun h => Value.noConfusion h)
  | Value.bool _, Value.fn _ => isFalse (fun h => Value.noConfusion h)
  | Value.num _, Value.null => isFalse (fun h => Value.noConfusion h)
  | Value.num _, Value.bool _ => isFalse (fun h => Value.noConfusion h)
  | Value.num _, Value.str _ => isFalse (fun h => Value.noConfusion h)
  | Value.num _, Value.bin _ => isFalse (fun h => Value.noConfusion h)
  | Value.num _, Value.arr _ => isFalse (fun h => Value.noConfusion h)
  | Value.num _, Value.fn _ => isFalse (fun h => Value.noConfusion h)
  | Value.str _, Value.null => isFalse (fun h => Value.noConfusion h)
  | Value.str _, Value.bool _ => isFalse (fun h => Value.noConfusion h)
  | Value.str _, Value.num _ => isFalse (fun h => Value.noConfusion h)
  | Value.str _, Value.bin _ => isFalse (fun h => Value.noConfusion h)
  | Value.str _, Value.arr _ => isFalse (fun h => Value.noConfusion h)
  | Value.str _, Value.fn _ => isFalse (fun h => Value.noConfusion h)
  | Value.bin _, Value.null => isFalse (fun h => Value.noConfusion h)
  | Value.bin _, Value.bool _ => isFalse (fun h => Value.noConfusion h)
  | Value.bin _, Value.num _ => isFalse (fun h => Value.noConfusion h)
  | Value.bin _, Value.str _ => isFalse (fun h => Value.noConfusion h)
  | Value.bin _, Value.arr _ => isFalse (fun h => Value.noConfusion h)
  | Value.bin _, Value.fn _ => isFalse (fun h => Value.noConfusion h)
  | Value.arr _, Value.null => isFalse (fun h => Value.noConfusion h)
  | Value.arr _, Value.bool _ => isFalse (fun h => Value.noConfusion h)
  | Value.arr _, Value.num _ => isFalse (fun h => Value.noConfusion h)
  | Value.arr _, Value.str _ => isFalse (fun h => Value.noConfusion h)
  | Value.arr _, Value.bin _ => isFalse (fun h => Value.noConfusion h)
  | Value.arr _, Value.fn _ => isFalse (fun h => Value.noConfusion h)
  | Value.fn _, Value.null => isFalse (fun h => Value.noConfusion h)
  | Value.fn _, Value.bool _ => isFalse (fun h => Value.noConfusion h)
  | Value.fn _, Value.num _ => isFalse (fun h => Value.noConfusion h)
  | Value.fn _, Value.str _ => isFalse (fun h => Value.noConfusion h)
  | Value.fn _, Value.bin _ => isFalse (fun h => Value.noConfusion h)
  | Value.fn _, Value.arr _ => isFalse (fun h => Value.noConfusion h)

/-- Decidable equality on lists of values. -/
def Value.decEqList : (a b : List Value) → Decidable (a = b)
  | [], [] => isTrue rfl
  | [], _ :: _ => isFalse (fun h => List.noConfusion h)
  | _ :: _, [] => isFalse (fun h => List.noConfusion h)
  | a :: as, b :: bs =>
    match Value.decEq a b, Value.decEqList as bs with
    | isTrue h1, isTrue h2 => isTrue (by rw [h1, h2])
    | isFalse h1, _ => isFalse (fun hh => h1 (List.cons.inj hh).1)
    | _, isFalse h2 => isFalse (fun hh => h2 (List.cons.inj hh).2)

end

instance : DecidableEq Value := Value.decEq

mutual

/-- Deep binary detection, the contract of the `has-binary` module used by
`socket.js` and `namespace.js`: true when the value is or contains a binary
buffer. -/
def Value.hasBin : Value → Bool
  | Value.bin _ => true
  | Value.arr es => hasBinList es
  | _ => false

/-- Binary detection over an argument list (the `hasBin(args)` calls). -/
def hasBinList : List Value → Bool
  | [] => false
  | e :: es => e.hasBin || hasBinList es

end

/-- The test `'function' === typeof v`. -/
def Value.isFn : Value → Bool
  | Value.fn _ => true
  | _ => false

/-- The last-argument test `'function' === typeof args[args.length - 1]`. -/
def lastIsFn (args : List Value) : Bool :=
  match args.getLast? with
  | some v => v.isFn
  | none => false

/-- Packet types of the wire protocol (`socket.io-parser` constants). -/
inductive PacketType where
  | CONNECT | DISCONNECT | EVENT | ACK | ERROR | BINARY_EVENT | BINARY_ACK
deriving DecidableEq

/-- A decoded or outgoing packet: type, namespace (absent until stamped),
optional ack id, and payload. -/
structure Packet where
  type : PacketType
  nsp : Option String
  id : Option Nat
  data : Value
deriving DecidableEq

/-- The emission flags object (`this.flags`); each field models one flag
property, absent flags read as false via `Option.getD noFlags`. -/
structure Flags where
  json : Bool
  volatile : Bool
  broadcast : Bool
  compress : Bool
deriving DecidableEq

/-- The defaulted flags object `this.flags || {}`. -/
def noFlags : Flags :=
  { json := false, volatile := false, broadcast := false, compress := false }

/-- Observable output of an emission: either a direct packet write through
`Socket.packet` / `Client.packet` (with the volatile and compress options),
or a broadcast request handed to the adapter. -/
inductive Output where
  | packet : Packet → Bool → Bool → Output
  | broadcast : Packet → List String → Option (List String) → Option Flags → Output
deriving DecidableEq

/-- Association-list lookup for string-keyed JavaScript object properties. -/
def lookupKV {α : Type} : List (String × α) → String → Option α
  | [], _ => none
  | (k2, v) :: rest, k => if k2 = k then some v else lookupKV rest k

/-- Property deletion `delete obj[k]`. -/
def eraseKV {α : Type} (m : List (String × α)) (k : String) : List (String × α) :=
  m.filter (fun e => e.1 ≠ k)

/-- Property assignment `obj[k] = v` (overwrites any previous binding). -/
def setKV {α : Type} (m : List (String × α)) (k : String) (v : α) : List (String × α) :=
  (k, v) :: eraseKV m k

/-- Lookup in the numeric-keyed `acks` object. -/
def getKey : List (Nat × Value) → Nat → Option Value
  | [], _ => none
  | (k, v) :: rest, i => if k = i then some v else getKey rest i

/-- Deletion in the numeric-keyed `acks` object. -/
def eraseKey (m : List (Nat × Value)) (i : Nat) : List (Nat × Value) :=
  m.filter (fun e => e.1 ≠ i)

/-- Assignment `this.acks[i] = v`. -/
def setKey (m : List (Nat × Value)) (i : Nat) (v : Value) : List (Nat × Value) :=
  (i, v) :: eraseKey m i

/-- Number of entries stored under a given ack id. -/
def countKey (m : List (Nat × Value)) (i : Nat) : Nat :=
  (m.filter (fun e => e.1 = i)).length

/-- The state of one `Socket` (socket.js).  Mutable instance fields become
record fields; membership of this socket in the containing indices
(`nsp.connected`, `nsp.sockets`, `client.sockets`/`client.nsps`) is modelled
by the three boolean fields, and the per-namespace ack id counter `nsp.ids`
is inlined here since the claims concern a single socket of its namespace. -/
structure Socket where
  id : String
  nspName : String
  rooms : List String
  acks : List (Nat × Value)
  connected : Bool
  disconnected : Bool
  _rooms : Option (List String)
  flags : Option Flags
  nspIds : Nat
  inNspConnected : Bool
  inNspSockets : Bool
  inClientSockets : Bool
deriving DecidableEq

/-- The `Socket` constructor (socket.js lines 53 to 66): `rooms = {}`,
`acks = {}`, `connected = true`, `disconnected = false`; the namespace
`connected` index is untouched by the constructor, so the new socket is not
in `nsp.connected`. -/
def Socket.mkSocket (nspName clientId : String) (ids : Nat) : Socket :=
  { id := nspName ++ "#" ++ clientId
    nspName := nspName
    rooms := []
    acks := []
    connected := true
    disconnected := false
    _rooms := none
    flags := none
    nspIds := ids
    inNspConnected := false
    inNspSockets := false
    inClientSockets := false }

/-- The blacklisted socket event names (`Events` in socket.js lines 17 to 23). -/
def socketEvents : List String :=
  ["error", "connect", "disconnect", "newListener", "removeListener"]

/-- Result of one call to `Socket.emit`: `err` is the message of a thrown
exception (`none` when the call returns normally), `socket` is the state of
the socket when control leaves the method (also on the throwing path, where
the mutations made before the throw are kept), `out` the packets written or
broadcast. -/
structure EmitResult where
  err : Option String
  socket : Socket
  out : List Output
deriving DecidableEq

/-- `Socket.emit` (socket.js lines 100 to 138).  The event name is
`arguments[0]` and `args` is the full argument list including it; reserved
names dispatch locally and produce no packet.  Otherwise: the packet type is
computed by binary detection over the full argument list; if the last
argument is a function, a broadcast mode (a `_rooms` array present, or the
broadcast flag) throws before anything is stored, else the callback is
stored under the current `nsp.ids`, the packet is stamped with that id and
the counter incremented; the packet is then broadcast (excluding this
socket) or written directly, and `_rooms` and `flags` are deleted.  The
`delete` statements come after the `throw`, so the throwing path leaves
`_rooms` and `flags` in place. -/
def Socket.emit (s : Socket) (ev : String) (rest : List Value) : EmitResult :=
  if socketEvents.contains ev then
    { err := none, socket := s, out := [] }
  else
    let args := Value.str ev :: rest
    let ptype := if hasBinList args then PacketType.BINARY_EVENT else PacketType.EVENT
    let flags := s.flags.getD noFlags
    if lastIsFn args && (s._rooms.isSome || flags.broadcast) then
      { err := some "Callbacks are not supported when broadcasting", socket := s, out := [] }
    else
      let hasCb := lastIsFn args
      let data := if hasCb then args.dropLast else args
      let s1 : Socket :=
        if hasCb then
          { s with acks := setKey s.acks s.nspIds ((args.getLast?).getD Value.null)
                   nspIds := s.nspIds + 1 }
        else s
      let pid : Option Nat := if hasCb then some s.nspIds else none
      let packet : Packet := { type := ptype, nsp := none, id := pid, data := Value.arr data }
      if s._rooms.isSome || flags.broadcast then
        { err := none
          socket := { s1 with _rooms := none, flags := none }
          out := [Output.broadcast packet [s.id] s._rooms (some flags)] }
      else
        { err := none
          socket := { s1 with _rooms := none, flags := none }
          out := [Output.packet { packet with nsp := some s.nspName } flags.volatile flags.compress] }

/-- `Socket.to` (socket.js lines 146 to 150): create `_rooms` when absent and
append the room name if it is not already present. -/
def Socket.to (s : Socket) (name : String) : Socket :=
  let r := s._rooms.getD []
  { s with _rooms := some (if r.contains name then r else r ++ [name]) }

/-- `Socket.send` (socket.js lines 162 to 167): unshift the event name
`message` onto the argument list and call `emit`. -/
def Socket.send (s : Socket) (args : List Value) : EmitResult :=
  Socket.emit s "message" args

/-- `Socket.write` (socket.js lines 168 to 170):
`return this.send.call(this, arguments)` — the `arguments` object itself is
passed to `send` as one single argument (modelled as an array value), not
spread into separate arguments. -/
def Socket.write (s : Socket) (args : List Value) : EmitResult :=
  Socket.send s [Value.arr args]

/-- The compress modifier (socket.js lines 416 to 420). -/
def Socket.compress (s : Socket) (b : Bool) : Socket :=
  let f := s.flags.getD noFlags
  { s with flags := some { f with compress := b } }

/-- The broadcast flag getter installed on the prototype
(socket.js lines 427 to 433). -/
def Socket.broadcastFlag (s : Socket) : Socket :=
  let f := s.flags.getD noFlags
  { s with flags := some { f with broadcast := true } }

/-- The volatile flag getter installed on the prototype
(socket.js lines 427 to 433). -/
def Socket.volatileFlag (s : Socket) : Socket :=
  let f := s.flags.getD noFlags
  { s with flags := some { f with volatile := true } }

/-- `Socket.join` restricted to the successful adapter path
(socket.js lines 196 to 207): a no-op when the room is already joined, else
record the room. -/
def Socket.join (s : Socket) (room : String) : Socket :=
  if s.rooms.contains room then s
  else { s with rooms := s.rooms ++ [room] }

/-- `Socket.onconnect` (socket.js lines 244 to 248): register in
`nsp.connected`, join the room named after the socket id, send a CONNECT
packet. -/
def Socket.onconnect (s : Socket) : Socket × List Output :=
  ({ (Socket.join s s.id) with inNspConnected := true }
  , [Output.packet { type := PacketType.CONNECT, nsp := some s.nspName
                     id := none, data := Value.null } false false])

/-- `Socket.onclose` (socket.js lines 367 to 376): a no-op when already
disconnected; else leave all rooms, remove from the namespace `sockets`
index and from the client indices, flip the connection booleans and delete
the entry in `nsp.connected`.  The `acks` map is not touched. -/
def Socket.onclose (s : Socket) : Socket :=
  if !s.connected then s
  else
    { s with rooms := []
             inNspSockets := false
             inClientSockets := false
             connected := false
             disconnected := true
             inNspConnected := false }

/-- The argument list delivered to local listeners by `onevent`: packet data
values, possibly followed by a generated ack callback, identified by the id
value that was handed to `this.ack` — `none` models the `undefined` that the
strict guard lets through when the packet carries no id. -/
inductive Delivered where
  | val : Value → Delivered
  | ackCb : Option Nat → Delivered
deriving DecidableEq

/-- The expression `packet.data || []` as used where the data is expected to
be an argument array; a non-array value is outside the decoder contract for
EVENT and ACK packets and is read as the empty list. -/
def eventData : Value → List Value
  | Value.arr es => es
  | _ => []

/-- `Socket.onevent` (socket.js lines 289 to 296): take the packet data as
the argument list and dispatch to local listeners.  The guard at line 292 is
the STRICT test `null !== packet.id`.  Under the decoder contract the `id`
of a decoded packet is either a number or the property is absent, that is
`undefined` — the parser never sets the literal `null` — and both
`number !== null` and `undefined !== null` are true, so the guard holds for
every decoded packet and `this.ack(packet.id)` is always pushed onto the
delivered arguments, with `undefined` as the captured id when the packet
carries none.  The function returns the delivered argument list. -/
def Socket.onevent (p : Packet) : List Delivered :=
  let args := (eventData p.data).map Delivered.val
  args ++ [Delivered.ackCb p.id]

/-- The closure state of one callback produced by `Socket.ack`
(socket.js lines 305 to 320): the captured packet id and the `sent` flag. -/
structure AckCb where
  id : Nat
  sent : Bool
deriving DecidableEq

/-- `Socket.ack(id)` (socket.js lines 305 to 320) returns a fresh callback
closure with `sent = false`. -/
def Socket.ack (id : Nat) : AckCb :=
  { id := id, sent := false }

/-- One invocation of the callback returned by `Socket.ack`
(socket.js lines 307 to 319).  The returned value is an arrow function, which
has no `arguments` object of its own: `Array.prototype.slice.call(arguments)`
therefore reads the `arguments` of the enclosing method `ack(id)`, which is
the one-element list `[id]`.  The arguments of the invocation itself
(`callArgs`) are consequently ignored by the code: the reply packet always
carries `data = [id]` and, since a number is never binary, always type ACK.
When `sent` is already true the invocation returns immediately. -/
def AckCb.invoke (s : Socket) (cb : AckCb) (callArgs : List Value) :
    AckCb × List Output :=
  if cb.sent then (cb, [])
  else
    let args := [Value.num (Int.ofNat cb.id)]
    let type := if hasBinList args then PacketType.BINARY_ACK else PacketType.ACK
    ({ cb with sent := true }
    , [Output.packet { type := type, nsp := some s.nspName
                       id := some cb.id, data := Value.arr args } false false])

/-- `Socket.onack` (socket.js lines 326 to 332): look up `acks[packet.id]`;
when the entry exists and is a function, invoke it with the packet data and
delete the entry; otherwise do nothing.  The second component lists the
callback invocations performed (callback value paired with its arguments). -/
def Socket.onack (s : Socket) (p : Packet) : Socket × List (Value × List Value) :=
  match p.id with
  | none => (s, [])
  | some i =>
    match getKey s.acks i with
    | some cb =>
      if cb.isFn then
        ({ s with acks := eraseKey s.acks i }, [(cb, eventData p.data)])
      else (s, [])
    | none => (s, [])

/-- The blacklisted namespace event names (`EventsArr` in namespace.js
lines 16 to 20). -/
def nspEvents : List String :=
  ["connect", "connection", "newListener"]

/-- A JavaScript `Error` object as handed to a middleware `next`: a message
and an optional `data` property. -/
structure JsError where
  message : String
  data : Option Value
deriving DecidableEq

/-- The state of one `Namespace` (namespace.js lines 46 to 56) restricted to
the fields the claims touch: the name, the middleware chain `fns` (each
middleware represented by a function value), the ack id counter `ids`, and
the transient `rooms` and `flags`. -/
structure Namespace where
  name : String
  fns : List Value
  ids : Nat
  rooms : Option (List String)
  flags : Option Flags
deriving DecidableEq

/-- What a call to `Namespace.run` does: either the final callback `fn` is
invoked (with `none` for `fn(null)`), or an exception escapes before any
middleware runs. -/
inductive RunOutcome where
  | called : Option JsError → RunOutcome
  | thrown : String → RunOutcome
deriving DecidableEq

/-- `Namespace.run` (namespace.js lines 85 to 95).  With an empty chain it
returns `fn(null)`.  With a non-empty chain the source executes
`fns.map( cb, i => ... )`: the first argument expression is the bare
identifier `cb`, which is bound nowhere in the file (the arrow function that
was meant to receive each middleware is passed as the second argument, the
`thisArg` of `map`).  Under the strict mode declared at the top of the file,
evaluating the unbound identifier throws a ReferenceError before `map` is
entered, so no middleware is ever invoked and `fn` is never called. -/
def Namespace.run (n : Namespace) : RunOutcome :=
  if n.fns.isEmpty then RunOutcome.called none
  else RunOutcome.thrown "ReferenceError: cb is not defined"

/-- The observable steps of a finalized admission, in execution order. -/
inductive AdmitEffect where
  | trackSocket : AdmitEffect
  | onconnect : AdmitEffect
  | adminCallback : AdmitEffect
  | fireConnect : AdmitEffect
  | fireConnection : AdmitEffect
  | errorPacket : Value → AdmitEffect
deriving DecidableEq

/-- `Namespace.add` (namespace.js lines 119 to 144): construct the socket,
run the middleware chain, and on the next tick — when the connection is
still open — either send an ERROR packet with `err.data || err.message`, or
track the socket, call `socket.onconnect()`, call the caller callback when
given, and fire `connect` then `connection`.  An exception thrown by `run`
propagates out of `add` synchronously (the `Except.error` case); the effect
list of the `Except.ok` case is what the scheduled tick performs. -/
def Namespace.add (n : Namespace) (connOpen : Bool) (hasFn : Bool) :
    Except String (List AdmitEffect) :=
  match Namespace.run n with
  | RunOutcome.thrown m => Except.error m
  | RunOutcome.called errv =>
    if connOpen then
      match errv with
      | some e => Except.ok [AdmitEffect.errorPacket (e.data.getD (Value.str e.message))]
      | none => Except.ok
          ([AdmitEffect.trackSocket, AdmitEffect.onconnect]
            ++ (if hasFn then [AdmitEffect.adminCallback] else [])
            ++ [AdmitEffect.fireConnect, AdmitEffect.fireConnection])
    else Except.ok []

/-- Result of one call to `Namespace.emit`, shaped like `EmitResult`. -/
structure NspEmitResult where
  err : Option String
  nsp : Namespace
  out : List Output
deriving DecidableEq

/-- `Namespace.emit` (namespace.js lines 163 to 190).  Reserved names
dispatch locally.  Otherwise the packet is built from the full argument
list; a trailing function argument always throws (namespace emission is
always a broadcast) — and the throw precedes the `delete` statements, so
the transient `rooms` and `flags` survive that path; on the normal path the
packet is handed to `adapter.broadcast` with the transient rooms and flags,
which are then deleted. -/
def Namespace.emit (n : Namespace) (ev : String) (rest : List Value) : NspEmitResult :=
  if nspEvents.contains ev then
    { err := none, nsp := n, out := [] }
  else
    let args := Value.str ev :: rest
    let ptype := if hasBinList args then PacketType.BINARY_EVENT else PacketType.EVENT
    let packet : Packet := { type := ptype, nsp := none, id := none, data := Value.arr args }
    if lastIsFn args then
      { err := some "Callbacks are not supported when broadcasting", nsp := n, out := [] }
    else
      { err := none
        nsp := { n with rooms := none, flags := none }
        out := [Output.broadcast packet [] n.rooms n.flags] }

/-- `Namespace.to` (namespace.js lines 103 to 107). -/
def Namespace.to (n : Namespace) (name : String) : Namespace :=
  let r := n.rooms.getD []
  { n with rooms := some (if r.contains name then r else r ++ [name]) }

/-- `Namespace.send` (namespace.js lines 198 to 206): copy the argument
list, unshift `message`, call `emit`. -/
def Namespace.send (n : Namespace) (args : List Value) : NspEmitResult :=
  Namespace.emit n "message" args

/-- `Namespace.write` (namespace.js lines 207 to 209):
`return this.send.call(this)` — `send` is called with no arguments at all,
so the caller arguments are dropped. -/
def Namespace.write (n : Namespace) (args : List Value) : NspEmitResult :=
  Namespace.send n []

/-- The state of one `Client` (part_000 lines 17 to 29): `sockets` maps a
socket id to the name of the namespace of that socket (the socket object is
represented by its namespace name, which is all `remove` reads from it),
`nsps` maps a namespace name to the socket id connected there, and
`connectBuffer` is the queue of namespace names whose admission was
deferred. -/
structure ClientState where
  sockets : List (String × String)
  nsps : List (String × String)
  connectBuffer : List String
deriving DecidableEq

/-- A fresh client: empty indices, empty buffer. -/
def ClientState.init : ClientState :=
  { sockets := [], nsps := [], connectBuffer := [] }

/-- Externally visible actions of `Client.connect`. -/
inductive ClientAction where
  | invalidNamespace : String → ClientAction
  | beginAdmission : String → ClientAction
deriving DecidableEq

/-- `Client.connect` (part_000 lines 54 to 75), synchronous part.  `known` is
the set of namespace names registered on the server (`this.server.nsps`).
Unknown names are answered with an ERROR packet.  A name other than `/`
while the client has no socket for `/` is pushed onto `connectBuffer` with
no admission.  Otherwise `nsp.add(this, onAdmitted)` is invoked, modelled as
the `beginAdmission` action (`Client.onAdmitted` is the callback). -/
def Client.connect (known : List String) (st : ClientState) (name : String) :
    ClientState × List ClientAction :=
  if !known.contains name then
    (st, [ClientAction.invalidNamespace name])
  else if name ≠ "/" && (lookupKV st.nsps "/").isNone then
    ({ st with connectBuffer := st.connectBuffer ++ [name] }, [])
  else
    (st, [ClientAction.beginAdmission name])

/-- One `forEach` iteration of the buffer drain in the admission callback:
`this.connect` applied to the accumulated state, collecting the actions. -/
def connectFold (known : List String) (acc : ClientState × List ClientAction)
    (nm : String) : ClientState × List ClientAction :=
  let c := Client.connect known acc.1 nm
  (c.1, acc.2 ++ c.2)

/-- The anonymous admission callback passed by `Client.connect` to `nsp.add`
(part_000 lines 66 to 74): record the new socket in `sockets` and `nsps`;
when the admitted namespace is `/` and the buffer is non-empty, re-invoke
`connect` for each buffered name in order (`forEach`) and then empty the
buffer. -/
def Client.onAdmitted (known : List String) (cid : String) (st : ClientState)
    (nspName : String) : ClientState × List ClientAction :=
  let sid := nspName ++ "#" ++ cid
  let st1 : ClientState :=
    { st with sockets := setKV st.sockets sid nspName
              nsps := setKV st.nsps nspName sid }
  if nspName = "/" ∧ 0 < st1.connectBuffer.length then
    let r := st1.connectBuffer.foldl (connectFold known) (st1, [])
    ({ r.1 with connectBuffer := [] }, r.2)
  else
    (st1, [])

/-- `Client.remove` (part_000 lines 94 to 100): when `sockets` holds the
socket id, read the namespace name of that socket and delete both index
entries; otherwise do nothing. -/
def Client.remove (st : ClientState) (sid : String) : ClientState :=
  match lookupKV st.sockets sid with
  | some nspName =>
    { st with sockets := eraseKV st.sockets sid, nsps := eraseKV st.nsps nspName }
  | none => st

/-- `Client.onclose` (part_000 lines 191 to 201) restricted to its effect on
the indices: every socket runs `onclose`, which calls `Client.remove` for it
and so deletes its `nsps` entry; afterwards `sockets` is assigned `{}`.
Since every `nsps` entry is installed together with its `sockets` entry, the
net effect on the two indices is to empty both. -/
def Client.oncloseState (st : ClientState) : ClientState :=
  { st with sockets := [], nsps := [] }

/-- Routing decision of `Client.ondecoded` (part_000 lines 159 to 168):
CONNECT packets go to `connect`; any other packet is dispatched to the
socket found under its namespace in `nsps`, and dropped when there is
none. -/
inductive DecodedAction where
  | connectNsp : String → DecodedAction
  | dispatch : String → Packet → DecodedAction
  | drop : DecodedAction
deriving DecidableEq

/-- `Client.ondecoded` (part_000 lines 159 to 168); the decoder defaults the
packet namespace to `/`. -/
def Client.ondecoded (st : ClientState) (p : Packet) : DecodedAction :=
  if p.type = PacketType.CONNECT then
    DecodedAction.connectNsp (p.nsp.getD "/")
  else
    match lookupKV st.nsps (p.nsp.getD "/") with
    | some sid => DecodedAction.dispatch sid p
    | none => DecodedAction.drop

/-- One step of a socket during its lifetime: the operations of socket.js
that can run on an existing socket.  `connectStep` carries the guard
`disconnected = false` because `onconnect` is invoked exactly once, from the
tick scheduled by `Namespace.add` (namespace.js line 134), and at that point
no close path can have run: every close path (`Client.onclose`,
`Client.onerror`, `Client.disconnect`, `ondisconnect` via packet routing)
reaches a socket only through the client indices, which are populated only
by the admission callback that runs after `onconnect` (part_000
lines 66 to 74, namespace.js line 135). -/
inductive SStep : Socket → Socket → Prop where
  | connectStep (s : Socket) : s.disconnected = false → SStep s (Socket.onconnect s).1
  | closeStep (s : Socket) : SStep s (Socket.onclose s)
  | emitStep (s : Socket) (ev : String) (rest : List Value) :
      SStep s (Socket.emit s ev rest).socket
  | onackStep (s : Socket) (p : Packet) : SStep s (Socket.onack s p).1
  | toStep (s : Socket) (r : String) : SStep s (Socket.to s r)
  | joinStep (s : Socket) (r : String) : SStep s (Socket.join s r)
  | compressStep (s : Socket) (b : Bool) : SStep s (Socket.compress s b)
  | broadcastFlagStep (s : Socket) : SStep s (Socket.broadcastFlag s)
  | volatileFlagStep (s : Socket) : SStep s (Socket.volatileFlag s)

/-- The socket states reachable from a freshly constructed socket by the
operations above. -/
def SocketReachable (nsp cid : String) (ids : Nat) (s : Socket) : Prop :=
  Relation.ReflTransGen SStep (Socket.mkSocket nsp cid ids) s

/-- Lifecycle invariant carried through the reachability proof: the two
connection booleans are opposite, and membership in `nsp.connected` implies
the connected flag. -/
def SocketLifeInv (s : Socket) : Prop :=
  s.connected = !s.disconnected ∧ (s.inNspConnected = true → s.connected = true)

/-- One step of a client: its own `connect`, an admission callback firing,
a socket removal, or the transport close. -/
inductive CStep (known : List String) (cid : String) : ClientState → ClientState → Prop where
  | connectStep (st : ClientState) (name : String) :
      CStep known cid st (Client.connect known st name).1
  | admittedStep (st : ClientState) (nspName : String) :
      CStep known cid st (Client.onAdmitted known cid st nspName).1
  | removeStep (st : ClientState) (sid : String) :
      CStep known cid st (Client.remove st sid)
  | oncloseStep (st : ClientState) :
      CStep known cid st (Client.oncloseState st)

/-- The client states reachable from a fresh client. -/
def ClientReachable (known : List String) (cid : String) (st : ClientState) : Prop :=
  Relation.ReflTransGen (CStep known cid) ClientState.init st

/-- The buffer invariant of part_000: a client holding a default-namespace
socket has an empty `connectBuffer`. -/
def ClientBufferInv (st : ClientState) : Prop :=
  (lookupKV st.nsps "/").isSome = true → st.connectBuffer = []

/-- A namespace with one registered middleware (the failing input of the
middleware-chain claim). -/
def adminNsp : Namespace :=
  { name := "/admin", fns := [Value.fn 0], ids := 0, rooms := none, flags := none }

/-- A socket that has run `to("r")` before emitting. -/
def c2s : Socket := Socket.to (Socket.mkSocket "/" "c2" 0) "r"

/-- A fresh socket used for ack-callback evaluation. -/
def s3 : Socket := Socket.mkSocket "/" "client1" 0

/-- A connected socket holding one pending ack entry under id 0. -/
def c4s : Socket := { Socket.mkSocket "/" "c4" 1 with acks := [(0, Value.fn 5)] }

/-- A fresh socket on the default namespace used for write evaluation. -/
def s6 : Socket := Socket.mkSocket "/" "client6" 0

/-- The default namespace with no middleware and no transient state. -/
def n6 : Namespace := { name := "/", fns := [], ids := 0, rooms := none, flags := none }

/-- Lookup after deletion: the deleted key reads absent, others unchanged. -/
theorem lookupKV_eraseKV {α : Type} (m : List (String × α)) (k k2 : String) :
    lookupKV (eraseKV m k) k2 = if k = k2 then none else lookupKV m k2 := by
  induction m with
  | nil => simp only [eraseKV, List.filter_nil, lookupKV]; split <;> rfl
  | cons e rest ih =>
    by_cases h1 : e.1 = k <;> by_cases h2 : e.1 = k2 <;> by_cases h3 : k = k2 <;>
      simp_all [eraseKV, lookupKV, List.filter_cons]

/-- Lookup after assignment: the assigned key reads the new value, others
unchanged. -/
theorem lookupKV_setKV {α : Type} (m : List (String × α)) (k k2 : String) (v : α) :
    lookupKV (setKV m k v) k2 = if k = k2 then some v else lookupKV m k2 := by
  simp only [setKV, lookupKV]
  by_cases h : k = k2 <;> simp [h, lookupKV_eraseKV]

/-- Ack-map lookup after deletion. -/
theorem getKey_eraseKey (m : List (Nat × Value)) (i j : Nat) :
    getKey (eraseKey m i) j = if i = j then none else getKey m j := by
  induction m with
  | nil => simp only [eraseKey, List.filter_nil, getKey]; split <;> rfl
  | cons e rest ih =>
    by_cases h1 : e.1 = i <;> by_cases h2 : e.1 = j <;> by_cases h3 : i = j <;>
      simp_all [eraseKey, getKey, List.filter_cons]

/-- Ack-map lookup after assignment. -/
theorem getKey_setKey (m : List (Nat × Value)) (i j : Nat) (v : Value) :
    getKey (setKey m i v) j = if i = j then some v else getKey m j := by
  simp only [setKey, getKey]
  by_cases h : i = j <;> simp [h, getKey_eraseKey]

/-- No entry under a key survives its deletion. -/
theorem countKey_eraseKey (m : List (Nat × Value)) (i : Nat) :
    countKey (eraseKey m i) i = 0 := by
  induction m with
  | nil => rfl
  | cons e rest ih =>
    by_cases h1 : e.1 = i <;> simp_all [eraseKey, countKey, List.filter_cons]

/-- Assignment leaves exactly one entry under the assigned key. -/
theorem countKey_setKey (m : List (Nat × Value)) (i : Nat) (v : Value) :
    countKey (setKey m i v) i = 1 := by
  simp [setKey, countKey, List.filter_cons]
  have h := countKey_eraseKey m i
  simpa [countKey] using h

/-- `Socket.emit` never changes the lifecycle fields. -/
theorem Socket.emit_fields (s : Socket) (ev : String) (rest : List Value) :
    (Socket.emit s ev rest).socket.connected = s.connected ∧
    (Socket.emit s ev rest).socket.disconnected = s.disconnected ∧
    (Socket.emit s ev rest).socket.inNspConnected = s.inNspConnected := by
  unfold Socket.emit
  dsimp only
  split
  · exact ⟨rfl, rfl, rfl⟩
  · split
    · exact ⟨rfl, rfl, rfl⟩
    · split <;> split <;> exact ⟨rfl, rfl, rfl⟩

/-- `Socket.onack` never changes the lifecycle fields. -/
theorem Socket.onack_fields (s : Socket) (p : Packet) :
    (Socket.onack s p).1.connected = s.connected ∧
    (Socket.onack s p).1.disconnected = s.disconnected ∧
    (Socket.onack s p).1.inNspConnected = s.inNspConnected := by
  unfold Socket.onack
  cases hid : p.id with
  | none => exact ⟨rfl, rfl, rfl⟩
  | some i =>
    cases hg : getKey s.acks i with
    | none => simp [hg]
    | some cb => by_cases hf : cb.isFn <;> simp [hg, hf]

/-- `Socket.join` never changes the lifecycle fields. -/
theorem Socket.join_fields (s : Socket) (r : String) :
    (Socket.join s r).connected = s.connected ∧
    (Socket.join s r).disconnected = s.disconnected ∧
    (Socket.join s r).inNspConnected = s.inNspConnected := by
  unfold Socket.join
  split <;> exact ⟨rfl, rfl, rfl⟩

/-- Transport of the lifecycle invariant along field equalities. -/
theorem SocketLifeInv_pres {s t : Socket}
    (hC : t.connected = s.connected) (hD : t.disconnected = s.disconnected)
    (hN : t.inNspConnected = s.inNspConnected) (hs : SocketLifeInv s) :
    SocketLifeInv t := by
  obtain ⟨h1, h2⟩ := hs
  exact ⟨by rw [hC, hD, h1], by rw [hN, hC]; exact h2⟩

/-- The lifecycle invariant is preserved by every socket step. -/
theorem SocketLifeInv_step {s t : Socket} (h : SStep s t) (hs : SocketLifeInv s) :
    SocketLifeInv t := by
  cases h with
  | connectStep hguard =>
    obtain ⟨h1, h2⟩ := hs
    have hcon : s.connected = true := by rw [h1, hguard]; rfl
    obtain ⟨j1, j2, _⟩ := Socket.join_fields s s.id
    constructor
    · show (Socket.join s s.id).connected = !(Socket.join s s.id).disconnected
      rw [j1, j2, h1]
    · intro _
      show (Socket.join s s.id).connected = true
      rw [j1, hcon]
  | closeStep =>
    unfold Socket.onclose
    split
    · exact hs
    · exact ⟨rfl, fun h => Bool.noConfusion h⟩
  | emitStep ev rest =>
    obtain ⟨e1, e2, e3⟩ := Socket.emit_fields s ev rest
    exact SocketLifeInv_pres e1 e2 e3 hs
  | onackStep p =>
    obtain ⟨e1, e2, e3⟩ := Socket.onack_fields s p
    exact SocketLifeInv_pres e1 e2 e3 hs
  | toStep r => exact SocketLifeInv_pres rfl rfl rfl hs
  | joinStep r =>
    obtain ⟨e1, e2, e3⟩ := Socket.join_fields s r
    exact SocketLifeInv_pres e1 e2 e3 hs
  | compressStep b => exact SocketLifeInv_pres rfl rfl rfl hs
  | broadcastFlagStep => exact SocketLifeInv_pres rfl rfl rfl hs
  | volatileFlagStep => exact SocketLifeInv_pres rfl rfl rfl hs

/-- Every reachable socket state satisfies the lifecycle invariant. -/
theorem SocketLifeInv_reachable (nsp cid : String) (ids : Nat) (s : Socket)
    (h : SocketReachable nsp cid ids s) : SocketLifeInv s := by
  induction h with
  | refl => exact ⟨rfl, fun hh => Bool.noConfusion hh⟩
  | tail _ hbc ih => exact SocketLifeInv_step hbc ih

/-- When the client already has a default-namespace socket, `connect` for a
known name starts an admission and changes nothing. -/
theorem Client.connect_with_default (known : List String) (st : ClientState)
    (name : String) (hk : known.contains name = true)
    (hd : (lookupKV st.nsps "/").isSome = true) :
    Client.connect known st name = (st, [ClientAction.beginAdmission name]) := by
  unfold Client.connect
  have hnd : (lookupKV st.nsps "/").isNone = false := by
    cases hx : lookupKV st.nsps "/" with
    | none => rw [hx] at hd; simp at hd
    | some v => rfl
  rw [hk, hnd]
  simp

/-- `Client.connect` either leaves the state unchanged, or pushes the name
onto `connectBuffer` in a state with no default-namespace socket. -/
theorem Client.connect_cases (known : List String) (st : ClientState) (name : String) :
    (Client.connect known st name).1 = st ∨
    ((Client.connect known st name).1 =
        { st with connectBuffer := st.connectBuffer ++ [name] } ∧
      (lookupKV st.nsps "/").isNone = true) := by
  unfold Client.connect
  split
  · exact Or.inl rfl
  · split
    · rename_i h
      exact Or.inr ⟨rfl, (Bool.and_eq_true _ _ |>.mp h).2⟩
    · exact Or.inl rfl

/-- Draining the buffer with `forEach(this.connect, this)`: when the state
has a default-namespace socket and every buffered name is known, the fold
leaves the state unchanged and issues one admission per name, in order. -/
theorem Client.drain_foldl (known : List String) (st : ClientState)
    (acc : List ClientAction) (names : List String)
    (hd : (lookupKV st.nsps "/").isSome = true)
    (hall : ∀ nm ∈ names, known.contains nm = true) :
    names.foldl (connectFold known) (st, acc)
      = (st, acc ++ names.map ClientAction.beginAdmission) := by
  induction names generalizing acc with
  | nil => simp
  | cons nm rest ih =>
    have h1 : Client.connect known st nm = (st, [ClientAction.beginAdmission nm]) :=
      Client.connect_with_default known st nm (hall nm (List.mem_cons_self nm rest)) hd
    simp only [List.foldl_cons, connectFold, h1, List.map_cons]
    rw [ih (acc ++ [ClientAction.beginAdmission nm])
        (fun x hx => hall x (List.mem_cons_of_mem nm hx))]
    simp

/-- Behaviour of the admission callback on `connectBuffer` and on the
default-namespace entry of `nsps`. -/
theorem Client.onAdmitted_buffer (known : List String) (cid : String)
    (st : ClientState) (nspName : String) :
    (Client.onAdmitted known cid st nspName).1.connectBuffer = [] ∨
    (nspName ≠ "/" ∧
      (Client.onAdmitted known cid st nspName).1.connectBuffer = st.connectBuffer ∧
      lookupKV (Client.onAdmitted known cid st nspName).1.nsps "/" = lookupKV st.nsps "/") := by
  unfold Client.onAdmitted
  dsimp only
  split
  · exact Or.inl rfl
  · rename_i h
    by_cases hn : nspName = "/"
    · left
      subst hn
      have hlen : ¬ 0 < st.connectBuffer.length := fun hl => h ⟨rfl, hl⟩
      simpa using List.length_eq_zero.mp (Nat.eq_zero_of_not_pos hlen)
    · right
      refine ⟨hn, rfl, ?_⟩
      dsimp only
      rw [lookupKV_setKV]
      simp [hn]

/-- `Client.remove` keeps the buffer and can only remove `nsps` entries. -/
theorem Client.remove_fields (st : ClientState) (sid : String) :
    (Client.remove st sid).connectBuffer = st.connectBuffer ∧
    ((lookupKV (Client.remove st sid).nsps "/").isSome = true →
      (lookupKV st.nsps "/").isSome = true) := by
  unfold Client.remove
  cases h : lookupKV st.sockets sid with
  | none => exact ⟨rfl, fun x => x⟩
  | some nspName =>
    refine ⟨rfl, ?_⟩
    dsimp only
    rw [lookupKV_eraseKV]
    split
    · intro h2; simp at h2
    · intro h2; exact h2

/-- The buffer invariant is preserved by every client step. -/
theorem ClientBufferInv_step {known : List String} {cid : String}
    {st st2 : ClientState} (h : CStep known cid st st2) (hs : ClientBufferInv st) :
    ClientBufferInv st2 := by
  cases h with
  | connectStep name =>
    rcases Client.connect_cases known st name with h1 | ⟨h1, h2⟩
    · rw [h1]; exact hs
    · rw [h1]
      intro hl
      have : (lookupKV st.nsps "/").isSome = true := hl
      cases hx : lookupKV st.nsps "/" with
      | none => rw [hx] at this; simp at this
      | some v => rw [hx] at h2; simp at h2
  | admittedStep nspName =>
    rcases Client.onAdmitted_buffer known cid st nspName with h1 | ⟨_, h2, h3⟩
    · intro _; exact h1
    · intro hl
      rw [h3] at hl
      rw [h2]
      exact hs hl
  | removeStep sid =>
    obtain ⟨h1, h2⟩ := Client.remove_fields st sid
    intro hl
    rw [h1]
    exact hs (h2 hl)
  | oncloseStep =>
    intro hl
    simp [Client.oncloseState, lookupKV] at hl

/-- Every reachable client state satisfies the buffer invariant. -/
theorem ClientBufferInv_reachable (known : List String) (cid : String)
    (st : ClientState) (h : ClientReachable known cid st) : ClientBufferInv st := by
  induction h with
  | refl => intro hl; rfl
  | tail _ hbc ih => exact ClientBufferInv_step hbc ih

/-- For a non-reserved event, `Socket.emit` either throws leaving the state
untouched, or returns normally with the transient fields cleared. -/
theorem Socket.emit_paths (s : Socket) (ev : String) (rest : List Value)
    (hev : socketEvents.contains ev = false) :
    ((Socket.emit s ev rest).err.isSome = true ∧ (Socket.emit s ev rest).socket = s) ∨
    ((Socket.emit s ev rest).err = none ∧
      (Socket.emit s ev rest).socket._rooms = none ∧
      (Socket.emit s ev rest).socket.flags = none) := by
  unfold Socket.emit
  simp only [hev, Bool.false_eq_true, if_false]
  split
  · exact Or.inl ⟨rfl, rfl⟩
  · split <;> exact Or.inr ⟨rfl, rfl, rfl⟩

/-- For a non-reserved event, `Namespace.emit` either throws leaving the
state untouched, or returns normally with the transient fields cleared. -/
theorem Namespace.nsp_emit_paths (n : Namespace) (ev : String) (rest : List Value)
    (hev : nspEvents.contains ev = false) :
    ((Namespace.emit n ev rest).err.isSome = true ∧ (Namespace.emit n ev rest).nsp = n) ∨
    ((Namespace.emit n ev rest).err = none ∧
      (Namespace.emit n ev rest).nsp.rooms = none ∧
      (Namespace.emit n ev rest).nsp.flags = none) := by
  unfold Namespace.emit
  simp only [hev, Bool.false_eq_true, if_false]
  split
  · exact Or.inl ⟨rfl, rfl⟩
  · exact Or.inr ⟨rfl, rfl, rfl⟩

/-- C1.  The claim says `Namespace.add` runs the registered middlewares in
registration order and admits or rejects the socket accordingly.  The code
does not: with any non-empty chain, `Namespace.run` evaluates the unbound
identifier `cb` in `fns.map( cb, i => ... )` and throws a ReferenceError
before invoking a single middleware, so `Namespace.add` neither admits the
socket nor sends an ERROR packet.  This theorem evaluates the embedded code
at the failing input (a namespace with one middleware); the final conjunct
shows the admission sequence the code performs on the one path that works,
the empty chain. -/
theorem C1_middleware_chain_throws_referenceerror :
    Namespace.run adminNsp = RunOutcome.thrown "ReferenceError: cb is not defined" ∧
    Namespace.add adminNsp true true = Except.error "ReferenceError: cb is not defined" ∧
    Namespace.add { adminNsp with fns := [] } true true =
      Except.ok [AdmitEffect.trackSocket, AdmitEffect.onconnect, AdmitEffect.adminCallback,
        AdmitEffect.fireConnect, AdmitEffect.fireConnection] :=
  ⟨rfl, rfl, rfl⟩

/-- C2 counterexample.  The claim says the transient `_rooms` is cleared by
the time `emit` completes on every path, including the throwing path.  On a
socket that ran `to("r")`, an emit with a trailing callback throws, and
after the call `_rooms` still holds `["r"]` because the `delete` statements
sit after the `throw`. -/
theorem C2_cex_throwing_emit_keeps_rooms :
    (Socket.emit c2s "x" [Value.fn 7]).err =
      some "Callbacks are not supported when broadcasting" ∧
    (Socket.emit c2s "x" [Value.fn 7]).socket._rooms = some ["r"] :=
  ⟨rfl, rfl⟩

/-- C2 (amended).  For every non-reserved emit on Socket and Namespace, the
transient rooms and flags are cleared whenever the call completes without
throwing; the path that throws the broadcasting-callback error leaves them
in place (see the counterexample). -/
theorem C2_emit_clears_transients_unless_throw :
    (∀ s ev rest, socketEvents.contains ev = false →
      (Socket.emit s ev rest).err = none →
      (Socket.emit s ev rest).socket._rooms = none ∧
      (Socket.emit s ev rest).socket.flags = none) ∧
    (∀ n ev rest, nspEvents.contains ev = false →
      (Namespace.emit n ev rest).err = none →
      (Namespace.emit n ev rest).nsp.rooms = none ∧
      (Namespace.emit n ev rest).nsp.flags = none) := by
  constructor
  · intro s ev rest hev h
    rcases Socket.emit_paths s ev rest hev with ⟨h1, _⟩ | ⟨_, h2, h3⟩
    · rw [h] at h1; simp at h1
    · exact ⟨h2, h3⟩
  · intro n ev rest hev h
    rcases Namespace.nsp_emit_paths n ev rest hev with ⟨h1, _⟩ | ⟨_, h2, h3⟩
    · rw [h] at h1; simp at h1
    · exact ⟨h2, h3⟩

/-- Witness for C2 at a concrete successful emit. -/
theorem C2_witness :
    (Socket.emit (Socket.mkSocket "/" "w2" 0) "x" []).socket._rooms = none ∧
    (Socket.emit (Socket.mkSocket "/" "w2" 0) "x" []).socket.flags = none :=
  C2_emit_clears_transients_unless_throw.1 (Socket.mkSocket "/" "w2" 0) "x" []
    (by decide) rfl

/-- C3.  The claim says the callback returned by `Socket.ack(id)` sends a
reply whose data equals the arguments of its first invocation, with
BINARY_ACK when they contain binary.  The code disagrees: the callback is an
arrow function, so `arguments` inside it is the `arguments` of `ack(id)`
itself, and every first invocation sends `data = [id]` with type ACK — here
invoking the callback of `ack(0)` with `"pong"`, and with a binary buffer,
both produce an ACK whose data is `[0]`.  The single-shot part of the claim
does hold: a second invocation sends nothing and changes nothing. -/
theorem C3_ack_reply_ignores_invocation_args :
    (AckCb.invoke s3 (Socket.ack 0) [Value.str "pong"]).2 =
      [Output.packet { type := PacketType.ACK, nsp := some "/", id := some 0
                       data := Value.arr [Value.num 0] } false false] ∧
    (AckCb.invoke s3 (Socket.ack 0) [Value.bin [1, 2]]).2 =
      [Output.packet { type := PacketType.ACK, nsp := some "/", id := some 0
                       data := Value.arr [Value.num 0] } false false] ∧
    Value.arr [Value.num 0] ≠ Value.arr [Value.str "pong"] ∧
    AckCb.invoke s3 { id := 0, sent := true } [Value.str "pong"] =
      ({ id := 0, sent := true }, []) :=
  ⟨rfl, rfl, by decide, rfl⟩

/-- C4 counterexample.  The claim says that after the socket closes, the
acks entry no longer exists.  Closing a connected socket holding the pending
entry `(0, fn 5)` leaves that entry in the map: `onclose` never touches
`acks`. -/
theorem C4_cex_onclose_keeps_ack_entry :
    (Socket.onclose c4s).connected = false ∧
    (Socket.onclose c4s).disconnected = true ∧
    getKey (Socket.onclose c4s).acks 0 = some (Value.fn 5) :=
  ⟨rfl, rfl, rfl⟩

/-- C4 (amended).  An emit that stamps an ack id stores exactly one `acks`
entry under that id (the popped trailing callback) and advances the counter;
a matching ACK invokes the stored callback once with the packet data and
removes the entry; an ACK for a different id and further emits leave the
entry alone; `onclose` leaves the whole `acks` map untouched (the entries
persist after close, unlike the claim said), and after close no packet
reaches the socket because the client no longer routes its namespace
(`ondecoded` drops packets whose namespace has no entry in `nsps`). -/
theorem C4_acks_entry_lifecycle :
    (∀ s ev rest, socketEvents.contains ev = false →
      lastIsFn (Value.str ev :: rest) = true →
      s._rooms = none → (s.flags.getD noFlags).broadcast = false →
      countKey (Socket.emit s ev rest).socket.acks s.nspIds = 1 ∧
      getKey (Socket.emit s ev rest).socket.acks s.nspIds =
        some (((Value.str ev :: rest).getLast?).getD Value.null) ∧
      (Socket.emit s ev rest).socket.nspIds = s.nspIds + 1 ∧
      (∃ p v c, (Socket.emit s ev rest).out = [Output.packet p v c] ∧
        p.id = some s.nspIds)) ∧
    (∀ s p i cb, p.id = some i → getKey s.acks i = some cb → cb.isFn = true →
      Socket.onack s p = ({ s with acks := eraseKey s.acks i }, [(cb, eventData p.data)]) ∧
      getKey (eraseKey s.acks i) i = none) ∧
    (∀ s p i j, p.id = some j → j ≠ i →
      getKey (Socket.onack s p).1.acks i = getKey s.acks i) ∧
    (∀ s ev rest i, i < s.nspIds →
      getKey (Socket.emit s ev rest).socket.acks i = getKey s.acks i) ∧
    (∀ s, (Socket.onclose s).acks = s.acks) ∧
    (∀ st p, p.type ≠ PacketType.CONNECT →
      lookupKV st.nsps (p.nsp.getD "/") = none →
      Client.ondecoded st p = DecodedAction.drop) := by
  refine ⟨?_, ?_, ?_, ?_, ?_, ?_⟩
  · intro s ev rest hev hfn hr hb
    unfold Socket.emit
    simp only [hev, Bool.false_eq_true, if_false, hfn, hr, hb, Option.isSome_none,
      Bool.or_self, Bool.and_false, if_true, Bool.true_and]
    refine ⟨countKey_setKey _ _ _, ?_, trivial, ⟨_, _, _, rfl, rfl⟩⟩
    rw [getKey_setKey]
    simp
  · intro s p i cb hid hg hf
    unfold Socket.onack
    rw [hid]
    simp only [hg, hf, if_true]
    refine ⟨trivial, ?_⟩
    rw [getKey_eraseKey]
    simp
  · intro s p i j hid hne
    unfold Socket.onack
    rw [hid]
    cases hg : getKey s.acks j with
    | none => simp [hg]
    | some cb =>
      by_cases hf : cb.isFn = true
      · simp [hg, hf, getKey_eraseKey, hne]
      · simp [hg, hf]
  · intro s ev rest i hi
    have hne : (s.nspIds = i) = False :=
      eq_false (fun h => absurd hi (by rw [h]; exact lt_irrefl i))
    unfold Socket.emit
    dsimp only
    split
    · rfl
    · split
      · rfl
      · split <;> split <;> simp [getKey_setKey, hne]
  · intro s
    unfold Socket.onclose
    split <;> rfl
  · intro st p hne hl
    unfold Client.ondecoded
    rw [if_neg hne]
    simp [hl]

/-- Witness for C4 at a concrete emit carrying a trailing callback. -/
theorem C4_witness :
    countKey (Socket.emit (Socket.mkSocket "/" "w4" 0) "x" [Value.fn 3]).socket.acks 0 = 1 :=
  (C4_acks_entry_lifecycle.1 (Socket.mkSocket "/" "w4" 0) "x" [Value.fn 3]
    (by decide) (by decide) rfl rfl).1

/-- C5 counterexample.  The claim says a socket is in `nsp.connected` if and
only if its `connected` flag is true, from construction onward.  A freshly
constructed socket already has `connected = true` (set by the constructor)
but is not yet in `nsp.connected` (only `onconnect` registers it), so the
equivalence fails at construction. -/
theorem C5_cex_fresh_socket_connected_but_unregistered :
    (Socket.mkSocket "/" "c5" 0).connected = true ∧
    (Socket.mkSocket "/" "c5" 0).inNspConnected = false :=
  ⟨rfl, rfl⟩

/-- C5 (amended).  One direction of the claimed equivalence holds at every
reachable point of the socket lifetime: whenever the socket is a member of
`nsp.connected`, its `connected` flag is true.  The converse fails between
construction and `onconnect` (and permanently for a middleware-rejected
socket). -/
theorem C5_in_nsp_connected_implies_connected (nsp cid : String) (ids : Nat)
    (s : Socket) (h : SocketReachable nsp cid ids s)
    (hin : s.inNspConnected = true) : s.connected = true :=
  (SocketLifeInv_reachable nsp cid ids s h).2 hin

/-- Witness for C5 at the socket state right after `onconnect`. -/
theorem C5_witness :
    ((Socket.onconnect (Socket.mkSocket "/" "w5" 0)).1).connected = true :=
  C5_in_nsp_connected_implies_connected "/" "w5" 0 _
    (Relation.ReflTransGen.single (SStep.connectStep _ rfl)) rfl

/-- C6.  The claim says `Socket.write` and `Namespace.write` behave exactly
like `emit("message", ...args)`.  The code does not: `Socket.write` passes
the `arguments` object to `send` as one single argument, so the packet data
wraps the arguments in an extra array, and `Namespace.write` calls `send`
with no arguments at all, so the packet data is just `["message"]`.  The
theorem evaluates both at the argument list `["hello"]` and contrasts them
with the corresponding direct `emit("message", "hello")`. -/
theorem C6_write_does_not_match_emit_message :
    (Socket.write s6 [Value.str "hello"]).out =
      [Output.packet
        { type := PacketType.EVENT, nsp := some "/", id := none,
          data := Value.arr [Value.str "message", Value.arr [Value.str "hello"]] }
        false false] ∧
    (Socket.emit s6 "message" [Value.str "hello"]).out =
      [Output.packet
        { type := PacketType.EVENT, nsp := some "/", id := none,
          data := Value.arr [Value.str "message", Value.str "hello"] }
        false false] ∧
    Socket.write s6 [Value.str "hello"] ≠ Socket.emit s6 "message" [Value.str "hello"] ∧
    (Namespace.write n6 [Value.str "hello"]).out =
      [Output.broadcast
        { type := PacketType.EVENT, nsp := none, id := none,
          data := Value.arr [Value.str "message"] }
        [] none none] ∧
    Namespace.write n6 [Value.str "hello"] ≠ Namespace.emit n6 "message" [Value.str "hello"] :=
  ⟨rfl, rfl, by decide, rfl, by decide⟩

/-- C7.  The claim says `onevent` appends a generated ack callback if and
only if the packet carries an ack id, and that id-less packets are delivered
with exactly the packet's data and no extra trailing callback.  The code
tests `null !== packet.id` with the STRICT inequality: a packet without an
id has `packet.id === undefined`, and `null !== undefined` is true, so
`this.ack(undefined)` is appended to the delivered arguments of id-less
packets as well — within the decoder contract (id a number or absent, never
the literal null) the guard is identically true and the push always happens.
The first conjunct evaluates the embedded `onevent` at the failing input, an
EVENT packet carrying no id, whose delivered argument list ends in the extra
generated callback; the second states the general always-append equation. -/
theorem C7_onevent_strict_null_test_appends_ack_without_id :
    Socket.onevent
      { type := PacketType.EVENT, nsp := some "/", id := none,
        data := Value.arr [Value.str "chat", Value.str "hi"] } =
      [Delivered.val (Value.str "chat"), Delivered.val (Value.str "hi"),
        Delivered.ackCb none] ∧
    (∀ p : Packet, Socket.onevent p =
      (eventData p.data).map Delivered.val ++ [Delivered.ackCb p.id]) :=
  ⟨rfl, fun p => rfl⟩

/-- C8.  Connect buffering: (1) for a known name other than `/` on a client
with no default-namespace socket, `Client.connect` only appends the name to
`connectBuffer` and starts no admission; (2) when admission to `/` succeeds,
the admission callback re-invokes `connect` once per buffered name in
enqueue order (each now starting its admission) and empties the buffer;
(3) on every reachable client state, the buffer is empty whenever the
client has a default-namespace socket. -/
theorem C8_connect_buffering :
    (∀ known st name, known.contains name = true → name ≠ "/" →
      lookupKV st.nsps "/" = none →
      Client.connect known st name =
        ({ st with connectBuffer := st.connectBuffer ++ [name] }, [])) ∧
    (∀ known cid st, (∀ nm ∈ st.connectBuffer, known.contains nm = true) →
      (Client.onAdmitted known cid st "/").2 =
        st.connectBuffer.map ClientAction.beginAdmission ∧
      (Client.onAdmitted known cid st "/").1.connectBuffer = []) ∧
    (∀ known cid st, ClientReachable known cid st →
      (lookupKV st.nsps "/").isSome = true → st.connectBuffer = []) := by
  refine ⟨?_, ?_, ?_⟩
  · intro known st name hk hne hl
    unfold Client.connect
    rw [hk, hl]
    simp [hne]
  · intro known cid st hall
    unfold Client.onAdmitted
    dsimp only
    by_cases hlen : 0 < st.connectBuffer.length
    · rw [if_pos ⟨rfl, hlen⟩]
      have hd : (lookupKV (setKV st.nsps "/" ("/" ++ "#" ++ cid)) "/").isSome = true := by
        rw [lookupKV_setKV]
        simp
      rw [Client.drain_foldl known _ [] st.connectBuffer hd hall]
      exact ⟨by simp, rfl⟩
    · rw [if_neg (fun hc => hlen hc.2)]
      have hemp : st.connectBuffer = [] :=
        List.length_eq_zero.mp (Nat.eq_zero_of_not_pos hlen)
      exact ⟨by simp [hemp], hemp⟩
  · intro known cid st h hl
    exact ClientBufferInv_reachable known cid st h hl

/-- Witness for C8: a fresh client receiving CONNECT for a known `/chat`
before `/` is admitted buffers the name. -/
theorem C8_witness :
    Client.connect ["/", "/chat"] ClientState.init "/chat" =
      ({ sockets := [], nsps := [], connectBuffer := ["/chat"] }, []) :=
  C8_connect_buffering.1 ["/", "/chat"] ClientState.init "/chat" (by decide)
    (by decide) rfl

/-- C9.  An ack callback supplied to a broadcast emit fails synchronously
with the exact message, before any packet is written or broadcast and
before anything is stored in `acks`: the state is returned untouched and
the output list is empty.  On `Socket.emit` broadcast mode is a present
`_rooms` or the broadcast flag; on `Namespace.emit` every non-reserved emit
is a broadcast, so a trailing function always throws. -/
theorem C9_broadcast_ack_throws_before_traffic :
    (∀ s ev rest, socketEvents.contains ev = false →
      lastIsFn (Value.str ev :: rest) = true →
      (s._rooms.isSome || (s.flags.getD noFlags).broadcast) = true →
      Socket.emit s ev rest =
        { err := some "Callbacks are not supported when broadcasting",
          socket := s, out := [] }) ∧
    (∀ n ev rest, nspEvents.contains ev = false →
      lastIsFn (Value.str ev :: rest) = true →
      Namespace.emit n ev rest =
        { err := some "Callbacks are not supported when broadcasting",
          nsp := n, out := [] }) := by
  constructor
  · intro s ev rest hev hfn hmode
    unfold Socket.emit
    rw [hev]
    simp only [Bool.false_eq_true, if_false, hfn, hmode, Bool.and_self, if_true]
  · intro n ev rest hev hfn
    unfold Namespace.emit
    rw [hev]
    simp only [Bool.false_eq_true, if_false, hfn, if_true]

/-- Witness for C9: an emit with the broadcast flag set and a trailing
callback value. -/
theorem C9_witness :
    Socket.emit (Socket.broadcastFlag (Socket.mkSocket "/" "w9" 0)) "x" [Value.fn 1] =
      { err := some "Callbacks are not supported when broadcasting",
        socket := Socket.broadcastFlag (Socket.mkSocket "/" "w9" 0), out := [] } :=
  C9_broadcast_ack_throws_before_traffic.1
    (Socket.broadcastFlag (Socket.mkSocket "/" "w9" 0)) "x" [Value.fn 1]
    (by decide) (by decide) (by decide)

/-- C10.  An incoming ACK whose id has no pending entry in `acks` is a
silent no-op: `onack` returns the state unchanged and invokes no
callback. -/
theorem C10_onack_unknown_id_is_noop (s : Socket) (p : Packet) (i : Nat)
    (hid : p.id = some i) (h : getKey s.acks i = none) :
    Socket.onack s p = (s, []) := by
  unfold Socket.onack
  rw [hid]
  simp [h]

/-- Witness for C10: an ACK with id 3 on a socket with an empty acks map. -/
theorem C10_witness :
    Socket.onack (Socket.mkSocket "/" "w10" 0)
      { type := PacketType.ACK, nsp := some "/", id := some 3, data := Value.arr [] } =
      (Socket.mkSocket "/" "w10" 0, []) :=
  C10_onack_unknown_id_is_noop _ _ 3 rfl rfl

end SocketIO
